import Mathlib

/-!
Shallow embedding of the grocery-list subsystem of the repository
(`services/groceryService.js`): the data model, the categorizer, the
quantity estimator, the cost estimator and the `generateGroceryList`
aggregation, together with theorems settling the specification claims.

Numbers: the JS code only manipulates integers and exact decimal
constants that are multiples of 1/2 (all representable exactly in
binary floating point, and all intermediate sums stay exact), so the
arithmetic is embedded over `ℚ` / `ℤ` without loss.  `Math.ceil` and
`Math.round` are embedded via the executable `Rat.floor`.
-/

namespace Grocery

/-- ASCII model of JS `String.prototype.toLowerCase` (all lookup-table keys
in the source are ASCII, where JS and `Char.toLower` agree). -/
def jsLower (s : String) : String := ⟨s.data.map Char.toLower⟩

/-- `startsWithChars needle hay` : `needle` is a prefix of `hay`. -/
def startsWithChars : List Char → List Char → Bool
  | [], _ => true
  | _ :: _, [] => false
  | a :: as, b :: bs => a == b && startsWithChars as bs

/-- `hasSubstringChars needle hay` : `needle` occurs contiguously in `hay`. -/
def hasSubstringChars (needle : List Char) : List Char → Bool
  | [] => startsWithChars needle []
  | c :: rest => startsWithChars needle (c :: rest) || hasSubstringChars needle rest

/-- Model of JS `s.includes(sub)` : `sub` occurs contiguously in `s`. -/
def jsIncludes (s sub : String) : Bool := hasSubstringChars sub.data s.data

/-- Model of JS `Math.ceil` on exact rationals (executable). -/
def jsCeil (q : ℚ) : ℤ := -Rat.floor (-q)

/-- Model of JS `Math.round` (half goes up) on exact rationals (executable). -/
def jsRound (q : ℚ) : ℤ := Rat.floor (q + 1/2)

theorem ratFloor_eq_floor (q : ℚ) : Rat.floor q = ⌊q⌋ := by
  rw [Rat.floor_def' q, Rat.floor_def]

theorem jsCeil_eq_ceil (q : ℚ) : jsCeil q = ⌈q⌉ := by
  rw [jsCeil, ratFloor_eq_floor, Int.floor_neg, neg_neg]

theorem jsRound_eq_round (q : ℚ) : jsRound q = round q := by
  rw [jsRound, ratFloor_eq_floor, round_eq, one_div]

/-- A recipe record as returned by the Recipe Lookup collaborator
(`recipeService.getRecipeById`). -/
structure Recipe where
  id : Nat
  name : String
  servings : Nat
  cookingTime : Nat
  ingredients : List String
deriving DecidableEq, Repr

/-- The `{recipeId, recipeName}` pair pushed onto an ingredient entry's
`recipes` list. -/
structure RecipeTag where
  recipeId : Nat
  recipeName : String
deriving DecidableEq, Repr

/-- Result triple of `calculateIngredientQuantity`. -/
structure Quantity where
  amount : ℤ
  unit : String
  notes : String
deriving DecidableEq, Repr

/-- One value of the `groceryList.ingredients` mapping (fields in source
declaration order). -/
structure IngredientEntry where
  name : String
  quantity : ℤ
  unit : String
  category : String
  recipes : List RecipeTag
  notes : String
deriving DecidableEq, Repr

/-- The `{id, name, servings, cookingTime}` record pushed onto
`groceryList.recipes`. -/
structure RecipeSummary where
  id : Nat
  name : String
  servings : Nat
  cookingTime : Nat
deriving DecidableEq, Repr

/-- The `options` argument of `generateGroceryList`.  JS `servings = null`
is `none`; the code tests `servings` for truthiness, so `0` behaves
like `null` and is handled explicitly where the code does. -/
structure GroceryOptions where
  servings : Option Nat
  excludeIngredients : List String
deriving DecidableEq, Repr

/-- The full `groceryList` object.  JS objects with non-numeric string keys
iterate in insertion order, so both the `ingredients` mapping and the
`categorizedIngredients` mapping are embedded as insertion-ordered
association lists; the `summary` sub-object is flattened into fields. -/
structure GroceryList where
  recipes : List RecipeSummary
  ingredients : List (String × IngredientEntry)
  categorizedIngredients : List (String × List IngredientEntry)
  totalRecipes : Nat
  totalIngredients : Nat
  estimatedCost : ℚ
  estimatedTime : Nat
deriving DecidableEq, Repr

/-- First-match association-list lookup, the model of JS property access
`obj[key]` on the insertion-ordered objects above. -/
def alookup {β : Type} (k : String) : List (String × β) → Option β
  | [] => none
  | p :: rest => if p.1 = k then some p.2 else alookup k rest

/-- `this.ingredientCategories`, in source declaration (= iteration) order. -/
def ingredientCategories : List (String × List String) :=
  [("produce", ["tomato", "onion", "garlic", "basil", "herbs", "bell pepper", "lettuce", "cucumber"]),
   ("dairy", ["cheese", "butter", "milk", "cream", "yogurt", "mozzarella", "parmesan"]),
   ("protein", ["eggs", "chicken", "beef", "fish", "tofu"]),
   ("pantry", ["salt", "pepper", "olive oil", "flour", "sugar", "pasta", "rice"]),
   ("bread", ["bread", "tortilla", "buns", "rolls"]),
   ("condiments", ["balsamic vinegar", "soy sauce", "hot sauce", "mustard"])]

/-- The per-category test of `categorizeIngredient`:
`lowerIngredient.includes(item) || item.includes(lowerIngredient)`
for some keyword `item` of the category. -/
def catMatches (ingredient : String) (p : String × List String) : Bool :=
  p.2.any (fun item => jsIncludes (jsLower ingredient) item || jsIncludes item (jsLower ingredient))

/-- `GroceryService.categorizeIngredient`: first category of
`ingredientCategories` whose keyword test fires, else `"other"`. -/
def categorizeIngredient (ingredient : String) : String :=
  match ingredientCategories.find? (catMatches ingredient) with
  | some p => p.1
  | none => "other"

/-- The `baseQuantities` table of `calculateIngredientQuantity`. -/
def baseQuantities : List (String × Quantity) :=
  [("eggs", ⟨6, "pieces", "Large eggs"⟩),
   ("tomato", ⟨2, "pieces", "Medium tomatoes"⟩),
   ("cheese", ⟨200, "g", "Block or grated"⟩),
   ("butter", ⟨100, "g", "Unsalted preferred"⟩),
   ("bread", ⟨1, "loaf", "Whole grain or white"⟩),
   ("olive oil", ⟨250, "ml", "Extra virgin"⟩),
   ("onion", ⟨1, "piece", "Medium yellow onion"⟩),
   ("garlic", ⟨1, "head", "Fresh bulb"⟩),
   ("pasta", ⟨500, "g", "Dried pasta"⟩),
   ("salt", ⟨1, "container", "Sea salt or table salt"⟩),
   ("pepper", ⟨1, "container", "Freshly ground"⟩)]

/-- The `defaultQuantity` fallback of `calculateIngredientQuantity`. -/
def defaultQuantity : Quantity := ⟨1, "item", "Check recipe for specific amount"⟩

/-- `GroceryService.calculateIngredientQuantity` (the base objects are
always truthy, so JS `|| defaultQuantity` is exactly `Option.getD`). -/
def calculateIngredientQuantity (ingredient : String) (multiplier : ℚ) : Quantity :=
  let base := (alookup (jsLower ingredient) baseQuantities).getD defaultQuantity
  ⟨jsCeil ((base.amount : ℚ) * multiplier), base.unit, base.notes⟩

/-- The `averagePrices` table of `estimateTotalCost`. -/
def averagePrices : List (String × ℚ) :=
  [("eggs", 7/2), ("tomato", 2), ("cheese", 5), ("butter", 4),
   ("bread", 5/2), ("olive oil", 6), ("onion", 3/2), ("garlic", 1),
   ("pasta", 3/2), ("salt", 1), ("pepper", 3)]

/-- `GroceryService.estimateTotalCost` over the keys of the `ingredients`
object (every table price is nonzero, so JS `|| 2.50` is `Option.getD`). -/
def estimateTotalCost (ingredientKeys : List String) : ℚ :=
  let totalCost := ingredientKeys.foldl
    (fun t ingredient => t + ((alookup (jsLower ingredient) averagePrices).getD (5/2))) 0
  (jsRound (totalCost * 100) : ℚ) / 100

/-- `const servingMultiplier = servings ? servings / recipe.servings : 1`
(JS truthiness: `null` and `0` both yield `1`). -/
def servingMultiplier (servings : Option Nat) (r : Recipe) : ℚ :=
  match servings with
  | some s => if s ≠ 0 then (s : ℚ) / (r.servings : ℚ) else 1
  | none => 1

/-- `servings || recipe.servings` for the `recipes` summary entries. -/
def jsOrServings (servings : Option Nat) (r : Recipe) : Nat :=
  match servings with
  | some s => if s ≠ 0 then s else r.servings
  | none => r.servings

/-- `groceryList.ingredients[ingredient].recipes.push(tag)`: append `t` to
the `recipes` list of every entry stored under key `k`. -/
def pushRecipeTag (k : String) (t : RecipeTag) (l : List (String × IngredientEntry)) :
    List (String × IngredientEntry) :=
  l.map (fun p => if p.1 = k then (p.1, { p.2 with recipes := p.2.recipes ++ [t] }) else p)

/-- The body of the inner ingredient loop of `generateGroceryList` for one
ingredient of one recipe, acting on the `ingredients` association list. -/
def addIngredient (opts : GroceryOptions) (r : Recipe)
    (acc : List (String × IngredientEntry)) (ingredient : String) :
    List (String × IngredientEntry) :=
  if opts.excludeIngredients.contains (jsLower ingredient) then acc
  else
    let q := calculateIngredientQuantity ingredient (servingMultiplier opts.servings r)
    let acc2 :=
      if (alookup ingredient acc).isNone then
        acc ++ [(ingredient,
          { name := ingredient, quantity := q.amount, unit := q.unit,
            category := categorizeIngredient ingredient, recipes := [], notes := q.notes })]
      else acc
    pushRecipeTag ingredient ⟨r.id, r.name⟩ acc2

/-- The ingredient loop of `generateGroceryList` for one recipe. -/
def processRecipe (opts : GroceryOptions) (acc : List (String × IngredientEntry))
    (r : Recipe) : List (String × IngredientEntry) :=
  r.ingredients.foldl (addIngredient opts r) acc

/-- The recipe loop of `generateGroceryList`, building the `ingredients`
mapping from the resolved recipes. -/
def buildIngredients (opts : GroceryOptions) (rs : List Recipe) :
    List (String × IngredientEntry) :=
  rs.foldl (processRecipe opts) []

/-- One step of the "organize ingredients by category" loop: append an
entry to the bucket of its category, creating the bucket if absent. -/
def addToCategory (cats : List (String × List IngredientEntry)) (e : IngredientEntry) :
    List (String × List IngredientEntry) :=
  if (alookup e.category cats).isNone then cats ++ [(e.category, [e])]
  else cats.map (fun q => if q.1 = e.category then (q.1, q.2 ++ [e]) else q)

/-- Case-insensitive lexical comparison of char lists (the primary,
case-insensitive strength at which the source's `localeCompare`
comparator orders ASCII ingredient names). -/
def lexLeChars : List Char → List Char → Bool
  | [], _ => true
  | _ :: _, [] => false
  | a :: as, b :: bs => if a = b then lexLeChars as bs else decide (a < b)

/-- The sort order of `(a, b) => a.name.localeCompare(b.name)` on entries. -/
def entryLe (a b : IngredientEntry) : Prop :=
  lexLeChars (jsLower a.name).data (jsLower b.name).data = true

instance : DecidableRel entryLe := fun _ _ =>
  inferInstanceAs (Decidable (_ = true))

/-- `bucket.sort((a, b) => a.name.localeCompare(b.name))`, embedded as a
stable comparison sort with the same comparator. -/
def sortEntries (l : List IngredientEntry) : List IngredientEntry :=
  List.insertionSort entryLe l

/-- Assembly of the returned `groceryList` object from the resolved
recipes (the JS code interleaves fetching and accumulation, but any
fetch failure throws before anything is returned, so separating
resolution from assembly is extensionally identical). -/
def assembleGroceryList (opts : GroceryOptions) (recipeIds : List Nat)
    (rs : List Recipe) : GroceryList :=
  let ingredients := buildIngredients opts rs
  let cats := (ingredients.map Prod.snd).foldl addToCategory []
  { recipes := rs.map (fun r =>
      { id := r.id, name := r.name, servings := jsOrServings opts.servings r,
        cookingTime := r.cookingTime }),
    ingredients := ingredients,
    categorizedIngredients := cats.map (fun q => (q.1, sortEntries q.2)),
    totalRecipes := recipeIds.length,
    totalIngredients := ingredients.length,
    estimatedCost := estimateTotalCost (ingredients.map Prod.fst),
    estimatedTime := (rs.map Recipe.cookingTime).sum }

/-- Sequential resolution of the recipe identifiers through the Recipe
Lookup collaborator; the first unresolvable identifier aborts the whole
call (`getRecipeById` throws `AppError 404`, modelled as `.error id`). -/
def resolveRecipes (lookup : Nat → Option Recipe) : List Nat → Except Nat (List Recipe)
  | [] => .ok []
  | i :: rest =>
    match lookup i with
    | none => .error i
    | some r =>
      match resolveRecipes lookup rest with
      | .error e => .error e
      | .ok rs => .ok (r :: rs)

/-- `GroceryService.generateGroceryList` over an already-list-shaped
`recipeIds` (the JS wraps a single id into a one-element array first). -/
def generateGroceryList (lookup : Nat → Option Recipe) (recipeIds : List Nat)
    (opts : GroceryOptions) : Except Nat GroceryList :=
  (resolveRecipes lookup recipeIds).map (assembleGroceryList opts recipeIds)

/-! ### Specification-side vocabulary used to state the claims -/

/-- The exclusion test of the inner loop, as a function of the ingredient. -/
def excludedB (opts : GroceryOptions) (k : String) : Bool :=
  opts.excludeIngredients.contains (jsLower k)

/-- The `{recipeId, recipeName}` tag contributed by a recipe. -/
def recipeTagOf (r : Recipe) : RecipeTag := ⟨r.id, r.name⟩

/-- The `(recipe, ingredient)` occurrences in processing order. -/
def recipePairs (rs : List Recipe) : List (Recipe × String) :=
  rs.flatMap (fun r => r.ingredients.map (fun i => (r, i)))

/-- One inner-loop step, uncurried over a `(recipe, ingredient)` pair. -/
def stepPair (opts : GroceryOptions) (acc : List (String × IngredientEntry))
    (p : Recipe × String) : List (String × IngredientEntry) :=
  addIngredient opts p.1 acc p.2

/-- The tags pushed for ingredient `k`, one per occurrence, in order. -/
def tagsFor (k : String) (ps : List (Recipe × String)) : List RecipeTag :=
  (ps.filter (fun p => p.2 == k)).map (fun p => recipeTagOf p.1)

/-- The recipe of the first occurrence of ingredient `k`. -/
def firstIntro (k : String) (ps : List (Recipe × String)) : Option Recipe :=
  (ps.find? (fun p => p.2 == k)).map Prod.fst

/-- The entry created when recipe `r` first introduces ingredient `k`,
with a given final `recipes` list. -/
def freshEntry (opts : GroceryOptions) (k : String) (r : Recipe)
    (recipes : List RecipeTag) : IngredientEntry :=
  let q := calculateIngredientQuantity k (servingMultiplier opts.servings r)
  { name := k, quantity := q.amount, unit := q.unit,
    category := categorizeIngredient k, recipes := recipes, notes := q.notes }

/-- The base-table row used by the Quantity Estimator for a name. -/
def jsBaseQuantity (name : String) : Quantity :=
  (alookup (jsLower name) baseQuantities).getD defaultQuantity

/-- The per-ingredient price used by the Cost Estimator for a name. -/
def jsPrice (name : String) : ℚ :=
  (alookup (jsLower name) averagePrices).getD (5/2)

/-- The first recipe identifier the collaborator cannot resolve. -/
def firstUnresolved (lookup : Nat → Option Recipe) (ids : List Nat) : Option Nat :=
  ids.find? (fun i => (lookup i).isNone)

/-- Placeholder list used to destructure successful results in witnesses. -/
def emptyGroceryList : GroceryList :=
  { recipes := [], ingredients := [], categorizedIngredients := [],
    totalRecipes := 0, totalIngredients := 0, estimatedCost := 0, estimatedTime := 0 }

/-- Placeholder entry used to destructure buckets in witnesses. -/
def emptyEntry : IngredientEntry := ⟨"", 0, "", "", [], ""⟩

def exceptDecEq {ε α : Type} [DecidableEq ε] [DecidableEq α] :
    DecidableEq (Except ε α) := fun x y =>
  match x, y with
  | .error u, .error v =>
    if h : u = v then .isTrue (congrArg Except.error h)
    else .isFalse (fun hh => h (Except.error.inj hh))
  | .ok u, .ok v =>
    if h : u = v then .isTrue (congrArg Except.ok h)
    else .isFalse (fun hh => h (Except.ok.inj hh))
  | .error _, .ok _ => .isFalse (fun hh => Except.noConfusion hh)
  | .ok _, .error _ => .isFalse (fun hh => Except.noConfusion hh)

instance {ε α : Type} [DecidableEq ε] [DecidableEq α] : DecidableEq (Except ε α) :=
  exceptDecEq

/-! ### Association-list lemmas -/

theorem alookup_append {β : Type} (k : String) :
    ∀ l₁ l₂ : List (String × β),
      alookup k (l₁ ++ l₂) =
        match alookup k l₁ with
        | some v => some v
        | none => alookup k l₂
  | [], _ => rfl
  | p :: t, l₂ => by
    by_cases h : p.1 = k
    · simp [alookup, h]
    · simp [alookup, h, alookup_append k t l₂]

theorem alookup_eq_none {β : Type} (k : String) :
    ∀ l : List (String × β), alookup k l = none ↔ k ∉ l.map Prod.fst
  | [] => by simp [alookup]
  | p :: t => by
    by_cases h : p.1 = k
    · simp [alookup, h]
    · simp [alookup, h, alookup_eq_none k t, Ne.symm h]

theorem alookup_mem {β : Type} (k : String) :
    ∀ (l : List (String × β)) (v : β), alookup k l = some v → v ∈ l.map Prod.snd
  | [], v => by simp [alookup]
  | p :: t, v => by
    by_cases h : p.1 = k
    · intro hv
      simp [alookup, h] at hv
      rw [List.map_cons]
      exact List.mem_cons.mpr (Or.inl hv.symm)
    · intro hv
      simp only [alookup, h, if_false] at hv
      rw [List.map_cons]
      exact List.mem_cons_of_mem _ (alookup_mem k t v hv)

theorem pushRecipeTag_cons (j : String) (t : RecipeTag) (p : String × IngredientEntry)
    (l : List (String × IngredientEntry)) :
    pushRecipeTag j t (p :: l) =
      (if p.1 = j then (p.1, { p.2 with recipes := p.2.recipes ++ [t] }) else p) ::
        pushRecipeTag j t l := by
  by_cases hp : p.1 = j <;> simp [pushRecipeTag, hp]

theorem alookup_pushRecipeTag_self (k : String) (t : RecipeTag) :
    ∀ l, alookup k (pushRecipeTag k t l) =
      (alookup k l).map (fun e => { e with recipes := e.recipes ++ [t] })
  | [] => rfl
  | p :: rest => by
    rw [pushRecipeTag_cons]
    by_cases h : p.1 = k
    · simp [alookup, h]
    · simp [alookup, h, alookup_pushRecipeTag_self k t rest]

theorem alookup_pushRecipeTag_ne {j k : String} (t : RecipeTag) (h : j ≠ k) :
    ∀ l, alookup k (pushRecipeTag j t l) = alookup k l
  | [] => rfl
  | p :: rest => by
    rw [pushRecipeTag_cons]
    by_cases hp : p.1 = j
    · simp [alookup, hp, h, alookup_pushRecipeTag_ne t h rest]
    · by_cases hk : p.1 = k
      · simp [alookup, hp, hk, Ne.symm h]
      · simp [alookup, hp, hk, alookup_pushRecipeTag_ne t h rest]

theorem pushRecipeTag_keys (j : String) (t : RecipeTag) :
    ∀ l, (pushRecipeTag j t l).map Prod.fst = l.map Prod.fst
  | [] => rfl
  | p :: rest => by
    rw [pushRecipeTag_cons]
    by_cases hp : p.1 = j
    · simp [hp, pushRecipeTag_keys j t rest]
    · simp [hp, pushRecipeTag_keys j t rest]

/-! ### Cons lemmas for the claim vocabulary -/

theorem tagsFor_cons_self (k : String) (r : Recipe) (ps : List (Recipe × String)) :
    tagsFor k ((r, k) :: ps) = recipeTagOf r :: tagsFor k ps := by
  simp [tagsFor, List.filter_cons]

theorem tagsFor_cons_ne (k : String) (r : Recipe) (ing : String)
    (ps : List (Recipe × String)) (h : ing ≠ k) :
    tagsFor k ((r, ing) :: ps) = tagsFor k ps := by
  simp [tagsFor, List.filter_cons, h]

theorem firstIntro_cons_self (k : String) (r : Recipe) (ps : List (Recipe × String)) :
    firstIntro k ((r, k) :: ps) = some r := by
  simp [firstIntro, List.find?_cons]

theorem firstIntro_cons_ne (k : String) (r : Recipe) (ing : String)
    (ps : List (Recipe × String)) (h : ing ≠ k) :
    firstIntro k ((r, ing) :: ps) = firstIntro k ps := by
  simp [firstIntro, List.find?_cons, h]

theorem recipePairs_cons (r : Recipe) (rs : List Recipe) :
    recipePairs (r :: rs) = (r.ingredients.map (fun i => (r, i))) ++ recipePairs rs := by
  simp [recipePairs]

/-! ### Master characterization of the ingredient-accumulation fold -/

theorem alookup_foldl_stepPair (opts : GroceryOptions) (k : String)
    (hk : excludedB opts k = false) :
    ∀ (ps : List (Recipe × String)) (acc : List (String × IngredientEntry)),
      alookup k (ps.foldl (stepPair opts) acc) =
        match alookup k acc, firstIntro k ps with
        | some e, _ => some { e with recipes := e.recipes ++ tagsFor k ps }
        | none, some r => some (freshEntry opts k r (tagsFor k ps))
        | none, none => none
  | [], acc => by
    cases h : alookup k acc <;> simp [tagsFor, firstIntro, h]
  | (r, ing) :: ps, acc => by
    rw [List.foldl_cons]
    by_cases hex : opts.excludeIngredients.contains (jsLower ing) = true
    · have hne : ing ≠ k := by
        intro hkk
        rw [hkk] at hex
        have hfalse : excludedB opts k = true := hex
        rw [hk] at hfalse
        exact absurd hfalse (by decide)
      have hmem : jsLower ing ∈ opts.excludeIngredients := by simpa using hex
      have hstep : stepPair opts acc (r, ing) = acc := by
        simp [stepPair, addIngredient, hmem]
      rw [hstep, tagsFor_cons_ne k r ing ps hne, firstIntro_cons_ne k r ing ps hne]
      exact alookup_foldl_stepPair opts k hk ps acc
    · rw [Bool.not_eq_true] at hex
      have hnm : jsLower ing ∉ opts.excludeIngredients := by simpa using hex
      by_cases hik : ing = k
      · subst hik
        cases hacc : alookup ing acc with
        | some e =>
          have hstep : stepPair opts acc (r, ing) =
              pushRecipeTag ing (recipeTagOf r) acc := by
            simp [stepPair, addIngredient, hnm, hacc, recipeTagOf]
          rw [hstep, alookup_foldl_stepPair opts ing hk ps _,
              alookup_pushRecipeTag_self, hacc,
              tagsFor_cons_self ing r ps, firstIntro_cons_self ing r ps]
          cases hfi : firstIntro ing ps <;>
            simp [List.append_assoc]
        | none =>
          have hstep : stepPair opts acc (r, ing) =
              pushRecipeTag ing (recipeTagOf r)
                (acc ++ [(ing, freshEntry opts ing r [])]) := by
            simp [stepPair, addIngredient, hnm, hacc, recipeTagOf, freshEntry]
          rw [hstep, alookup_foldl_stepPair opts ing hk ps _,
              alookup_pushRecipeTag_self, alookup_append, hacc,
              tagsFor_cons_self ing r ps, firstIntro_cons_self ing r ps]
          cases hfi : firstIntro ing ps <;>
            simp [alookup, freshEntry, List.append_assoc]
      · cases hacc : alookup ing acc with
        | some e =>
          have hstep : stepPair opts acc (r, ing) =
              pushRecipeTag ing (recipeTagOf r) acc := by
            simp [stepPair, addIngredient, hnm, hacc, recipeTagOf]
          rw [hstep, alookup_foldl_stepPair opts k hk ps _,
              alookup_pushRecipeTag_ne _ hik,
              tagsFor_cons_ne k r ing ps hik, firstIntro_cons_ne k r ing ps hik]
        | none =>
          have hstep : stepPair opts acc (r, ing) =
              pushRecipeTag ing (recipeTagOf r)
                (acc ++ [(ing, freshEntry opts ing r [])]) := by
            simp [stepPair, addIngredient, hnm, hacc, recipeTagOf, freshEntry]
          have hlook : alookup k (stepPair opts acc (r, ing)) = alookup k acc := by
            rw [hstep, alookup_pushRecipeTag_ne _ hik, alookup_append]
            cases h2 : alookup k acc <;> simp [alookup, hik]
          rw [alookup_foldl_stepPair opts k hk ps _, hlook,
              tagsFor_cons_ne k r ing ps hik, firstIntro_cons_ne k r ing ps hik]

theorem buildIngredients_pairs (opts : GroceryOptions) :
    ∀ (rs : List Recipe) (acc : List (String × IngredientEntry)),
      rs.foldl (processRecipe opts) acc = (recipePairs rs).foldl (stepPair opts) acc
  | [], _ => rfl
  | r :: rs, acc => by
    rw [List.foldl_cons, buildIngredients_pairs opts rs (processRecipe opts acc r),
        recipePairs_cons, List.foldl_append, List.foldl_map]
    rfl

theorem buildIngredients_eq (opts : GroceryOptions) (rs : List Recipe) :
    buildIngredients opts rs = (recipePairs rs).foldl (stepPair opts) [] :=
  buildIngredients_pairs opts rs []

theorem alookup_buildIngredients (opts : GroceryOptions) (rs : List Recipe) (k : String)
    (hk : excludedB opts k = false) :
    alookup k (buildIngredients opts rs) =
      match firstIntro k (recipePairs rs) with
      | some r => some (freshEntry opts k r (tagsFor k (recipePairs rs)))
      | none => none := by
  rw [buildIngredients_eq, alookup_foldl_stepPair opts k hk]
  cases hfi : firstIntro k (recipePairs rs) <;> simp [alookup]

theorem alookup_foldl_excluded (opts : GroceryOptions) (k : String)
    (hk : excludedB opts k = true) :
    ∀ (ps : List (Recipe × String)) (acc : List (String × IngredientEntry)),
      alookup k (ps.foldl (stepPair opts) acc) = alookup k acc
  | [], _ => rfl
  | (r, ing) :: ps, acc => by
    rw [List.foldl_cons, alookup_foldl_excluded opts k hk ps _]
    by_cases hex : opts.excludeIngredients.contains (jsLower ing) = true
    · have hmem : jsLower ing ∈ opts.excludeIngredients := by simpa using hex
      simp [stepPair, addIngredient, hmem]
    · rw [Bool.not_eq_true] at hex
      have hnm : jsLower ing ∉ opts.excludeIngredients := by simpa using hex
      have hik : ing ≠ k := by
        intro hkk
        rw [hkk] at hex
        have hfalse : excludedB opts k = false := hex
        rw [hk] at hfalse
        exact absurd hfalse (by decide)
      cases hacc : alookup ing acc with
      | some e =>
        have hstep : stepPair opts acc (r, ing) =
            pushRecipeTag ing (recipeTagOf r) acc := by
          simp [stepPair, addIngredient, hnm, hacc, recipeTagOf]
        rw [hstep, alookup_pushRecipeTag_ne _ hik]
      | none =>
        have hstep : stepPair opts acc (r, ing) =
            pushRecipeTag ing (recipeTagOf r)
              (acc ++ [(ing, freshEntry opts ing r [])]) := by
          simp [stepPair, addIngredient, hnm, hacc, recipeTagOf, freshEntry]
        rw [hstep, alookup_pushRecipeTag_ne _ hik, alookup_append]
        cases h2 : alookup k acc <;> simp [alookup, hik]

theorem alookup_buildIngredients_excluded (opts : GroceryOptions) (rs : List Recipe)
    (k : String) (hk : excludedB opts k = true) :
    alookup k (buildIngredients opts rs) = none := by
  rw [buildIngredients_eq, alookup_foldl_excluded opts k hk]
  rfl

/-! ### Keys and names invariants of the ingredients mapping -/

theorem addIngredient_keys (opts : GroceryOptions) (r : Recipe) (ing : String)
    (acc : List (String × IngredientEntry)) :
    (addIngredient opts r acc ing).map Prod.fst =
      if opts.excludeIngredients.contains (jsLower ing) then acc.map Prod.fst
      else if (alookup ing acc).isNone then acc.map Prod.fst ++ [ing]
      else acc.map Prod.fst := by
  by_cases hex : opts.excludeIngredients.contains (jsLower ing) = true
  · have hmem : jsLower ing ∈ opts.excludeIngredients := by simpa using hex
    simp [addIngredient, hmem]
  · rw [Bool.not_eq_true] at hex
    have hnm : jsLower ing ∉ opts.excludeIngredients := by simpa using hex
    cases hacc : alookup ing acc with
    | some e => simp [addIngredient, hnm, hacc, pushRecipeTag_keys]
    | none => simp [addIngredient, hnm, hacc, pushRecipeTag_keys]

theorem foldl_stepPair_keys_nodup (opts : GroceryOptions) :
    ∀ (ps : List (Recipe × String)) (acc : List (String × IngredientEntry)),
      (acc.map Prod.fst).Nodup → ((ps.foldl (stepPair opts) acc).map Prod.fst).Nodup
  | [], _, h => h
  | (r, ing) :: ps, acc, h => by
    rw [List.foldl_cons]
    apply foldl_stepPair_keys_nodup opts ps
    rw [stepPair, addIngredient_keys]
    by_cases hex : opts.excludeIngredients.contains (jsLower ing) = true
    · rw [if_pos hex]; exact h
    · rw [Bool.not_eq_true] at hex
      rw [if_neg (by rw [hex]; exact Bool.false_ne_true)]
      cases hacc : alookup ing acc with
      | some e => simp [h]
      | none =>
        have hni : ing ∉ acc.map Prod.fst := (alookup_eq_none ing acc).mp hacc
        simp [List.nodup_append, h, hni]

theorem buildIngredients_keys_nodup (opts : GroceryOptions) (rs : List Recipe) :
    ((buildIngredients opts rs).map Prod.fst).Nodup := by
  rw [buildIngredients_eq]
  exact foldl_stepPair_keys_nodup opts (recipePairs rs) [] (by simp)

/-- Every stored entry records its own key as its `name` field. -/
def namesConsistent (l : List (String × IngredientEntry)) : Prop :=
  ∀ p ∈ l, p.2.name = p.1

theorem namesConsistent_pushRecipeTag (j : String) (t : RecipeTag)
    (l : List (String × IngredientEntry)) (h : namesConsistent l) :
    namesConsistent (pushRecipeTag j t l) := by
  intro p hp
  obtain ⟨q, hq, hpq⟩ := List.mem_map.mp hp
  by_cases hqj : q.1 = j
  · rw [← hpq, if_pos hqj]
    show q.2.name = q.1
    exact h q hq
  · rw [← hpq, if_neg hqj]
    exact h q hq

theorem namesConsistent_addIngredient (opts : GroceryOptions) (r : Recipe) (ing : String)
    (acc : List (String × IngredientEntry)) (h : namesConsistent acc) :
    namesConsistent (addIngredient opts r acc ing) := by
  by_cases hex : opts.excludeIngredients.contains (jsLower ing) = true
  · have hmem : jsLower ing ∈ opts.excludeIngredients := by simpa using hex
    simpa [addIngredient, hmem] using h
  · rw [Bool.not_eq_true] at hex
    have hnm : jsLower ing ∉ opts.excludeIngredients := by simpa using hex
    cases hacc : alookup ing acc with
    | some e =>
      have hstep : addIngredient opts r acc ing = pushRecipeTag ing (recipeTagOf r) acc := by
        simp [addIngredient, hnm, hacc, recipeTagOf]
      rw [hstep]
      exact namesConsistent_pushRecipeTag ing (recipeTagOf r) acc h
    | none =>
      have hstep : addIngredient opts r acc ing =
          pushRecipeTag ing (recipeTagOf r) (acc ++ [(ing, freshEntry opts ing r [])]) := by
        simp [addIngredient, hnm, hacc, recipeTagOf, freshEntry]
      rw [hstep]
      apply namesConsistent_pushRecipeTag
      intro p hp
      rcases List.mem_append.mp hp with h1 | h1
      · exact h p h1
      · have h2 : p = (ing, freshEntry opts ing r []) := by simpa using h1
        rw [h2]
        rfl

theorem namesConsistent_buildIngredients (opts : GroceryOptions) (rs : List Recipe) :
    namesConsistent (buildIngredients opts rs) := by
  rw [buildIngredients_eq]
  have aux : ∀ (ps : List (Recipe × String)) (acc), namesConsistent acc →
      namesConsistent (ps.foldl (stepPair opts) acc) := by
    intro ps
    induction ps with
    | nil => intro acc h; exact h
    | cons p ps ih =>
      intro acc h
      rw [List.foldl_cons]
      exact ih _ (namesConsistent_addIngredient opts p.1 p.2 acc h)
  exact aux (recipePairs rs) [] (by intro p hp; cases hp)

theorem map_name_eq_keys :
    ∀ l : List (String × IngredientEntry), namesConsistent l →
      (l.map Prod.snd).map IngredientEntry.name = l.map Prod.fst
  | [], _ => rfl
  | p :: t, h => by
    have hp : p.2.name = p.1 := h p (List.mem_cons_self p t)
    have ht : namesConsistent t := fun q hq => h q (List.mem_cons_of_mem p hq)
    simp [hp, map_name_eq_keys t ht]

/-! ### Category grouping: the buckets partition the entries -/

theorem updateBucket_id (c : String) (e : IngredientEntry) :
    ∀ l : List (String × List IngredientEntry), c ∉ l.map Prod.fst →
      l.map (fun q => if q.1 = c then (q.1, q.2 ++ [e]) else q) = l
  | [], _ => rfl
  | q :: t, h => by
    rw [List.map_cons] at h
    have h1 : q.1 ≠ c := fun hc => h (hc ▸ List.mem_cons_self _ _)
    have h2 : c ∉ t.map Prod.fst := fun hc => h (List.mem_cons_of_mem _ hc)
    simp [h1, updateBucket_id c e t h2]

theorem updateBucket_keys (c : String) (e : IngredientEntry) :
    ∀ l : List (String × List IngredientEntry),
      (l.map (fun q => if q.1 = c then (q.1, q.2 ++ [e]) else q)).map Prod.fst =
        l.map Prod.fst
  | [] => rfl
  | q :: t => by
    by_cases hq : q.1 = c <;> simp [hq, updateBucket_keys c e t]

theorem flatMap_updateBucket (c : String) (e : IngredientEntry) :
    ∀ l : List (String × List IngredientEntry), (l.map Prod.fst).Nodup →
      c ∈ l.map Prod.fst →
      ((l.map (fun q => if q.1 = c then (q.1, q.2 ++ [e]) else q)).flatMap Prod.snd).Perm
        (l.flatMap Prod.snd ++ [e])
  | [], _, hmem => absurd hmem (by simp)
  | q :: t, hnd, hmem => by
    rw [List.map_cons] at hnd
    rw [List.map_cons, List.flatMap_cons]
    by_cases hq : q.1 = c
    · have hct : c ∉ t.map Prod.fst := hq ▸ (List.nodup_cons.mp hnd).1
      rw [if_pos hq, updateBucket_id c e t hct, List.flatMap_cons,
          List.append_assoc, List.append_assoc]
      exact List.Perm.append_left q.2 List.perm_append_comm
    · have hmem2 : c ∈ t.map Prod.fst := by
        rw [List.map_cons] at hmem
        rcases List.mem_cons.mp hmem with h1 | h1
        · exact absurd h1.symm hq
        · exact h1
      rw [if_neg hq, List.flatMap_cons, List.append_assoc]
      exact List.Perm.append_left q.2
        (flatMap_updateBucket c e t (List.nodup_cons.mp hnd).2 hmem2)

theorem addToCategory_perm (acc : List (String × List IngredientEntry)) (e : IngredientEntry)
    (h : (acc.map Prod.fst).Nodup) :
    ((addToCategory acc e).flatMap Prod.snd).Perm (acc.flatMap Prod.snd ++ [e]) := by
  rw [addToCategory]
  by_cases hacc : alookup e.category acc = none
  · rw [if_pos (by simp [hacc]), List.flatMap_append]
    simp only [List.flatMap_cons, List.flatMap_nil, List.append_nil]
    exact List.Perm.refl _
  · rw [if_neg (by simp [hacc])]
    have hmem : e.category ∈ acc.map Prod.fst := by
      by_contra hc
      exact hacc ((alookup_eq_none _ _).mpr hc)
    exact flatMap_updateBucket e.category e acc h hmem

theorem addToCategory_keys_nodup (acc : List (String × List IngredientEntry))
    (e : IngredientEntry) (h : (acc.map Prod.fst).Nodup) :
    ((addToCategory acc e).map Prod.fst).Nodup := by
  rw [addToCategory]
  by_cases hacc : alookup e.category acc = none
  · rw [if_pos (by simp [hacc])]
    have hni : e.category ∉ acc.map Prod.fst := (alookup_eq_none _ _).mp hacc
    simp [List.nodup_append, h, hni]
  · rw [if_neg (by simp [hacc]), updateBucket_keys]
    exact h

theorem foldl_addToCategory_perm :
    ∀ (es : List IngredientEntry) (acc : List (String × List IngredientEntry)),
      (acc.map Prod.fst).Nodup →
      ((es.foldl addToCategory acc).flatMap Prod.snd).Perm (acc.flatMap Prod.snd ++ es)
  | [], acc, _ => by simp
  | e :: es, acc, h => by
    rw [List.foldl_cons]
    have p1 := foldl_addToCategory_perm es (addToCategory acc e)
      (addToCategory_keys_nodup acc e h)
    have p2 := List.Perm.append_right es (addToCategory_perm acc e h)
    have p3 := p1.trans p2
    have heq : (acc.flatMap Prod.snd ++ [e]) ++ es =
        acc.flatMap Prod.snd ++ (e :: es) := by simp
    rw [heq] at p3
    exact p3

/-! ### The comparator order and sortedness -/

theorem lexLeChars_total : ∀ as bs : List Char,
    lexLeChars as bs = true ∨ lexLeChars bs as = true
  | [], _ => Or.inl rfl
  | _ :: _, [] => Or.inr rfl
  | a :: as, b :: bs => by
    by_cases hab : a = b
    · subst hab
      rcases lexLeChars_total as bs with h | h
      · exact Or.inl (by simp [lexLeChars, h])
      · exact Or.inr (by simp [lexLeChars, h])
    · rcases lt_or_gt_of_ne hab with h | h
      · exact Or.inl (by simp [lexLeChars, hab, h])
      · exact Or.inr (by simp [lexLeChars, Ne.symm hab, h])

theorem lexLeChars_trans : ∀ as bs cs : List Char,
    lexLeChars as bs = true → lexLeChars bs cs = true → lexLeChars as cs = true
  | [], _, _, _, _ => rfl
  | _ :: _, [], _, h1, _ => by simp [lexLeChars] at h1
  | _ :: _, _ :: _, [], _, h2 => by simp [lexLeChars] at h2
  | a :: as, b :: bs, c :: cs, h1, h2 => by
    simp only [lexLeChars] at h1 h2 ⊢
    by_cases hab : a = b
    · subst hab
      by_cases hbc : a = c
      · subst hbc
        simp only [if_pos rfl] at h1 h2 ⊢
        exact lexLeChars_trans as bs cs h1 h2
      · simp only [hbc, if_neg, ite_false, if_pos rfl] at h2 ⊢
        rw [if_pos rfl] at h1
        exact h2
    · by_cases hbc : b = c
      · subst hbc
        simp only [hab, ite_false, if_neg] at h1 ⊢
        exact h1
      · rw [if_neg hab] at h1
        rw [if_neg hbc] at h2
        have h1' : a < b := by simpa using h1
        have h2' : b < c := by simpa using h2
        have hac : a < c := lt_trans h1' h2'
        simp [ne_of_lt hac, hac]

instance : IsTotal IngredientEntry entryLe :=
  ⟨fun _ _ => lexLeChars_total _ _⟩

instance : IsTrans IngredientEntry entryLe :=
  ⟨fun _ _ _ => lexLeChars_trans _ _ _⟩

theorem sortEntries_perm (l : List IngredientEntry) : (sortEntries l).Perm l :=
  List.perm_insertionSort entryLe l

theorem sortEntries_sorted (l : List IngredientEntry) : List.Sorted entryLe (sortEntries l) :=
  List.sorted_insertionSort entryLe l

theorem flatMap_sortBuckets_perm :
    ∀ cats : List (String × List IngredientEntry),
      ((cats.map (fun q => (q.1, sortEntries q.2))).flatMap Prod.snd).Perm
        (cats.flatMap Prod.snd)
  | [] => List.Perm.refl _
  | q :: t => by
    rw [List.map_cons, List.flatMap_cons, List.flatMap_cons]
    exact List.Perm.append (sortEntries_perm q.2) (flatMap_sortBuckets_perm t)

/-! ### Projections of the assembled list and success inversion -/

theorem assemble_ingredients (opts : GroceryOptions) (recipeIds : List Nat)
    (rs : List Recipe) :
    (assembleGroceryList opts recipeIds rs).ingredients = buildIngredients opts rs := rfl

theorem assemble_categorizedIngredients (opts : GroceryOptions) (recipeIds : List Nat)
    (rs : List Recipe) :
    (assembleGroceryList opts recipeIds rs).categorizedIngredients =
      (((buildIngredients opts rs).map Prod.snd).foldl addToCategory []).map
        (fun q => (q.1, sortEntries q.2)) := rfl

theorem assemble_totalIngredients (opts : GroceryOptions) (recipeIds : List Nat)
    (rs : List Recipe) :
    (assembleGroceryList opts recipeIds rs).totalIngredients =
      (buildIngredients opts rs).length := rfl

theorem generate_ok (lookup : Nat → Option Recipe) (ids : List Nat) (opts : GroceryOptions)
    (rs : List Recipe) (h : resolveRecipes lookup ids = .ok rs) :
    generateGroceryList lookup ids opts = .ok (assembleGroceryList opts ids rs) := by
  rw [generateGroceryList, h]
  rfl

theorem generate_ok_inv (lookup : Nat → Option Recipe) (ids : List Nat)
    (opts : GroceryOptions) (gl : GroceryList)
    (h : generateGroceryList lookup ids opts = .ok gl) :
    ∃ rs, resolveRecipes lookup ids = .ok rs ∧ gl = assembleGroceryList opts ids rs := by
  rw [generateGroceryList] at h
  cases hres : resolveRecipes lookup ids with
  | error e =>
    rw [hres] at h
    exact absurd h (by simp [Except.map])
  | ok rs =>
    rw [hres] at h
    exact ⟨rs, rfl, (Except.ok.inj h).symm⟩

/-! ### find? first-match characterization -/

theorem find?_first {α : Type} (p : α → Bool) :
    ∀ (l : List α) (i : Nat) (h : i < l.length),
      p (l.get ⟨i, h⟩) = true →
      (∀ j (hj : j < i), p (l.get ⟨j, Nat.lt_trans hj h⟩) = false) →
      l.find? p = some (l.get ⟨i, h⟩)
  | a :: t, 0, h, hp, _ => by
    have hpa : p a = true := hp
    rw [List.find?_cons_of_pos t hpa]
    rfl
  | a :: t, i + 1, h, hp, hj => by
    have ha : p a = false := hj 0 (Nat.succ_pos i)
    rw [List.find?_cons_of_neg t (by simp [ha])]
    exact find?_first p t i (Nat.lt_of_succ_lt_succ h) hp
      (fun j hjlt => hj (j + 1) (Nat.succ_lt_succ hjlt))

/-! ### Quantity estimator facts -/

theorem baseQuantity_amount_pos (name : String) : 1 ≤ (jsBaseQuantity name).amount := by
  rw [jsBaseQuantity]
  cases hl : alookup (jsLower name) baseQuantities with
  | none => decide
  | some q =>
    have hq : q ∈ baseQuantities.map Prod.snd := alookup_mem _ _ _ hl
    have hall : ∀ v ∈ baseQuantities.map Prod.snd, 1 ≤ v.amount := by decide
    simpa using hall q hq

/-! ### Cost estimator facts -/

theorem foldl_add_jsPrice : ∀ (names : List String) (t : ℚ),
    names.foldl (fun t ingredient =>
      t + ((alookup (jsLower ingredient) averagePrices).getD (5/2))) t =
      t + (names.map jsPrice).sum
  | [], t => by simp
  | n :: names, t => by
    rw [List.foldl_cons, foldl_add_jsPrice names]
    simp [jsPrice, add_assoc]

/-! ### Recipe resolution failure -/

theorem resolveRecipes_error (lookup : Nat → Option Recipe) :
    ∀ (ids : List Nat) (i : Nat), firstUnresolved lookup ids = some i →
      resolveRecipes lookup ids = .error i ∧ lookup i = none ∧ i ∈ ids
  | [], i, h => by simp [firstUnresolved] at h
  | a :: ids, i, h => by
    cases hla : lookup a with
    | none =>
      have hia : i = a := by
        rw [firstUnresolved] at h
        rw [List.find?_cons_of_pos _ (by simp [hla])] at h
        exact (Option.some.inj h).symm
      subst hia
      refine ⟨?_, hla, List.mem_cons_self _ _⟩
      simp [resolveRecipes, hla]
    | some r =>
      have h2 : firstUnresolved lookup ids = some i := by
        rw [firstUnresolved] at h ⊢
        rwa [List.find?_cons_of_neg _ (by simp [hla])] at h
      obtain ⟨he, hn, hm⟩ := resolveRecipes_error lookup ids i h2
      refine ⟨?_, hn, List.mem_cons_of_mem a hm⟩
      simp [resolveRecipes, hla, he]

theorem categories_ne_other : ∀ p ∈ ingredientCategories, p.1 ≠ "other" := by decide

/-- Constant lookup used by witnesses: no identifier ever resolves. -/
def lkNone : Nat → Option Recipe := fun _ => none

/-! ### Claim theorems -/

/-- C5: for every ingredient name and positive rational multiplier,
`calculateIngredientQuantity` looks the name up case-insensitively in the
static base table (defaulting to `{1, "item", "Check recipe for specific
amount"}`), returns `amount = ceil(baseAmount * multiplier)`, which is a
positive integer, leaves unit and notes unscaled, and a recipe of
servings 4 requested at servings 8 yields multiplier 2. -/
theorem groceryService_claim_C5 (name : String) (m : ℚ) (r : Recipe)
    (hm : 0 < m) (hr : r.servings = 4) :
    (calculateIngredientQuantity name m).amount =
      ⌈((jsBaseQuantity name).amount : ℚ) * m⌉
    ∧ 1 ≤ (calculateIngredientQuantity name m).amount
    ∧ (calculateIngredientQuantity name m).unit = (jsBaseQuantity name).unit
    ∧ (calculateIngredientQuantity name m).notes = (jsBaseQuantity name).notes
    ∧ servingMultiplier (some 8) r = 2 := by
  have hbase : 1 ≤ (jsBaseQuantity name).amount := baseQuantity_amount_pos name
  have hamount : (calculateIngredientQuantity name m).amount =
      jsCeil (((jsBaseQuantity name).amount : ℚ) * m) := rfl
  refine ⟨?_, ?_, rfl, rfl, ?_⟩
  · rw [hamount, jsCeil_eq_ceil]
  · rw [hamount, jsCeil_eq_ceil]
    have hpos : (0 : ℚ) < ((jsBaseQuantity name).amount : ℚ) * m := by
      apply mul_pos _ hm
      exact_mod_cast lt_of_lt_of_le zero_lt_one hbase
    have hceil := Int.ceil_pos.mpr hpos
    omega
  · simp [servingMultiplier, hr]
    norm_num

theorem groceryService_claim_C5_witness :
    (calculateIngredientQuantity "eggs" 2).amount =
      ⌈((jsBaseQuantity "eggs").amount : ℚ) * 2⌉
    ∧ 1 ≤ (calculateIngredientQuantity "eggs" 2).amount
    ∧ (calculateIngredientQuantity "eggs" 2).unit = (jsBaseQuantity "eggs").unit
    ∧ (calculateIngredientQuantity "eggs" 2).notes = (jsBaseQuantity "eggs").notes
    ∧ servingMultiplier (some 8) ⟨1, "Omelet", 4, 10, ["eggs"]⟩ = 2 :=
  groceryService_claim_C5 "eggs" 2 ⟨1, "Omelet", 4, 10, ["eggs"]⟩ (by norm_num) rfl

/-- C6: `categorizeIngredient` returns the first category in the fixed
priority order produce, dairy, protein, pantry, bread, condiments whose
keyword test (bidirectional case-insensitive substring) fires, and
returns "other" exactly when no category matches. -/
theorem groceryService_claim_C6 (name : String) :
    (categorizeIngredient name = "other" ↔
      ∀ p ∈ ingredientCategories, catMatches name p = false)
    ∧ ∀ (i : Nat) (h : i < ingredientCategories.length),
        catMatches name (ingredientCategories.get ⟨i, h⟩) = true →
        (∀ j (hj : j < i),
          catMatches name (ingredientCategories.get ⟨j, Nat.lt_trans hj h⟩) = false) →
        categorizeIngredient name = (ingredientCategories.get ⟨i, h⟩).1 := by
  constructor
  · constructor
    · intro hother
      cases hf : ingredientCategories.find? (catMatches name) with
      | none =>
        intro p hp
        have hnp := List.find?_eq_none.mp hf p hp
        simpa using hnp
      | some q =>
        have hq : q ∈ ingredientCategories := List.mem_of_find?_eq_some hf
        have hval : categorizeIngredient name = q.1 := by
          simp only [categorizeIngredient, hf]
        rw [hval] at hother
        exact absurd hother (categories_ne_other q hq)
    · intro hall
      have hf : ingredientCategories.find? (catMatches name) = none :=
        List.find?_eq_none.mpr (fun p hp => by simp [hall p hp])
      simp only [categorizeIngredient, hf]
  · intro i h hp hj
    have hf := find?_first (catMatches name) ingredientCategories i h hp hj
    simp only [categorizeIngredient, hf]

/-- C7: if some identifier in the input fails to resolve through the
Recipe Lookup collaborator, `generateGroceryList` propagates the failure
(`.error` carrying the first failing identifier, the model of the thrown
`RecipeNotFound`) and returns no grocery list. -/
theorem groceryService_claim_C7 (lookup : Nat → Option Recipe) (ids : List Nat)
    (opts : GroceryOptions) (i : Nat) (h : firstUnresolved lookup ids = some i) :
    generateGroceryList lookup ids opts = .error i ∧ lookup i = none ∧ i ∈ ids := by
  obtain ⟨he, hn, hm⟩ := resolveRecipes_error lookup ids i h
  refine ⟨?_, hn, hm⟩
  rw [generateGroceryList, he]
  rfl

theorem groceryService_claim_C7_witness :
    generateGroceryList lkNone [1] ⟨none, []⟩ = .error 1
    ∧ lkNone 1 = none ∧ 1 ∈ [1] :=
  groceryService_claim_C7 lkNone [1] ⟨none, []⟩ 1 (by decide)

/-- C8: `estimateTotalCost` returns the sum of the per-ingredient prices
(case-insensitive lookup, 2.50 default for unknown names) rounded to two
decimal places with standard rounding; the empty list costs 0 and a
single unknown name costs 2.50. -/
theorem groceryService_claim_C8 :
    (∀ names : List String,
      estimateTotalCost names =
        ((round (((names.map jsPrice).sum) * 100) : ℤ) : ℚ) / 100)
    ∧ estimateTotalCost [] = 0
    ∧ estimateTotalCost ["unknown-item"] = 5/2 := by
  refine ⟨?_, ?_, ?_⟩
  · intro names
    simp only [estimateTotalCost]
    rw [foldl_add_jsPrice names 0, zero_add, jsRound_eq_round]
  · with_unfolding_all decide
  · with_unfolding_all decide

/-- C10: the empty ingredient name is categorized as "produce", not
"other", because the empty string is a substring of every keyword and
the first category in priority order wins; in general a name passing the
name-inside-keyword test of an earlier-priority category is assigned
that category. -/
theorem groceryService_claim_C10 (name : String) (i : Nat)
    (h : i < ingredientCategories.length)
    (hsub : ((ingredientCategories.get ⟨i, h⟩).2).any
      (fun item => jsIncludes item (jsLower name)) = true)
    (hearlier : ∀ j (hj : j < i),
      catMatches name (ingredientCategories.get ⟨j, Nat.lt_trans hj h⟩) = false) :
    categorizeIngredient "" = "produce"
    ∧ categorizeIngredient "" ≠ "other"
    ∧ categorizeIngredient name = (ingredientCategories.get ⟨i, h⟩).1 := by
  refine ⟨by decide, by decide, ?_⟩
  have hmatch : catMatches name (ingredientCategories.get ⟨i, h⟩) = true := by
    rw [catMatches, List.any_eq_true]
    rw [List.any_eq_true] at hsub
    obtain ⟨item, hitem, hinc⟩ := hsub
    exact ⟨item, hitem, by simp [hinc]⟩
  have hf := find?_first (catMatches name) ingredientCategories i h hmatch hearlier
  simp only [categorizeIngredient, hf]

theorem groceryService_claim_C10_witness :
    categorizeIngredient "" = "produce"
    ∧ categorizeIngredient "" ≠ "other"
    ∧ categorizeIngredient "" = (ingredientCategories.get ⟨0, by decide⟩).1 :=
  groceryService_claim_C10 "" 0 (by decide) (by decide)
    (fun j hj => absurd hj (Nat.not_lt_zero j))

/-! ### Specialized lookup corollaries and the bucket/entry permutation -/

theorem alookup_buildIngredients_none (opts : GroceryOptions) (rs : List Recipe)
    (k : String) (hk : excludedB opts k = false)
    (h : firstIntro k (recipePairs rs) = none) :
    alookup k (buildIngredients opts rs) = none := by
  rw [alookup_buildIngredients opts rs k hk, h]

theorem alookup_buildIngredients_some (opts : GroceryOptions) (rs : List Recipe)
    (k : String) (u : Recipe) (hk : excludedB opts k = false)
    (h : firstIntro k (recipePairs rs) = some u) :
    alookup k (buildIngredients opts rs) =
      some (freshEntry opts k u (tagsFor k (recipePairs rs))) := by
  rw [alookup_buildIngredients opts rs k hk, h]

theorem assemble_flat_perm (opts : GroceryOptions) (ids : List Nat) (rs : List Recipe) :
    ((assembleGroceryList opts ids rs).categorizedIngredients.flatMap Prod.snd).Perm
      ((buildIngredients opts rs).map Prod.snd) := by
  rw [assemble_categorizedIngredients]
  have p1 := flatMap_sortBuckets_perm
    (((buildIngredients opts rs).map Prod.snd).foldl addToCategory [])
  have p2 := foldl_addToCategory_perm ((buildIngredients opts rs).map Prod.snd) [] (by simp)
  have p3 := p1.trans p2
  simpa using p3

/-! ### Counting occurrences across recipes -/

theorem tagsFor_append (k : String) (ps qs : List (Recipe × String)) :
    tagsFor k (ps ++ qs) = tagsFor k ps ++ tagsFor k qs := by
  simp [tagsFor, List.filter_append]

theorem tagsFor_single_eq (k : String) (r : Recipe) :
    tagsFor k (r.ingredients.map (fun i => (r, i))) =
      List.replicate (r.ingredients.count k) (recipeTagOf r) := by
  rw [tagsFor, List.filter_map, List.map_map]
  show (r.ingredients.filter (fun i => i == k)).map (fun _ => recipeTagOf r) = _
  rw [List.map_const', List.count_eq_countP, List.countP_eq_length_filter]

theorem tagsFor_length (k : String) :
    ∀ rs : List Recipe,
      (tagsFor k (recipePairs rs)).length = (rs.map (fun r => r.ingredients.count k)).sum
  | [] => rfl
  | r :: rs => by
    rw [recipePairs_cons, tagsFor_append, List.length_append, tagsFor_single_eq,
        List.length_replicate, tagsFor_length k rs, List.map_cons, List.sum_cons]

/-! ### Example data used by witnesses -/

/-- Witness recipe: two-serving omelet listing eggs then cheese. -/
def exRecipeA : Recipe := ⟨1, "Omelet", 2, 10, ["eggs", "cheese"]⟩

/-- Witness recipe: four-serving scramble also listing eggs. -/
def exRecipeB : Recipe := ⟨2, "Scramble", 4, 5, ["eggs"]⟩

/-- Witness recipe: salad with two produce ingredients. -/
def exRecipeP : Recipe := ⟨3, "Salad", 2, 5, ["tomato", "onion"]⟩

/-- Witness lookup resolving identifiers 1 and 2. -/
def lkAB : Nat → Option Recipe
  | 1 => some exRecipeA
  | 2 => some exRecipeB
  | _ => none

/-- Witness lookup resolving identifier 3. -/
def lkP : Nat → Option Recipe
  | 3 => some exRecipeP
  | _ => none

/-- Witness options: no serving override, nothing excluded. -/
def noOpts : GroceryOptions := ⟨none, []⟩

/-- C1: when an ingredient occurs in several processed recipes, the
resulting entry is exactly the one created by the first recipe that
introduced it — its quantity is the quantity computed for that first
recipe and is never summed — while its contributing-recipes list
collects one tag per occurrence across all recipes, so its length is
the total occurrence count (2 when two recipes each list it once). -/
theorem groceryService_claim_C1 (lookup : Nat → Option Recipe) (ids : List Nat)
    (opts : GroceryOptions) (rs : List Recipe) (k : String) (u : Recipe)
    (hres : resolveRecipes lookup ids = .ok rs)
    (hexc : excludedB opts k = false)
    (hfirst : firstIntro k (recipePairs rs) = some u) :
    ((generateGroceryList lookup ids opts).map (fun gl => alookup k gl.ingredients)) =
      .ok (some (freshEntry opts k u (tagsFor k (recipePairs rs))))
    ∧ (freshEntry opts k u (tagsFor k (recipePairs rs))).quantity =
        (calculateIngredientQuantity k (servingMultiplier opts.servings u)).amount
    ∧ (tagsFor k (recipePairs rs)).length =
        (rs.map (fun r => r.ingredients.count k)).sum := by
  refine ⟨?_, rfl, tagsFor_length k rs⟩
  rw [generate_ok lookup ids opts rs hres]
  show Except.ok (alookup k (assembleGroceryList opts ids rs).ingredients) = _
  rw [assemble_ingredients, alookup_buildIngredients_some opts rs k u hexc hfirst]

theorem groceryService_claim_C1_witness :
    ((generateGroceryList lkAB [1, 2] noOpts).map
      (fun gl => alookup "eggs" gl.ingredients)) =
      .ok (some (freshEntry noOpts "eggs" exRecipeA
        (tagsFor "eggs" (recipePairs [exRecipeA, exRecipeB]))))
    ∧ (freshEntry noOpts "eggs" exRecipeA
        (tagsFor "eggs" (recipePairs [exRecipeA, exRecipeB]))).quantity =
        (calculateIngredientQuantity "eggs" (servingMultiplier noOpts.servings exRecipeA)).amount
    ∧ (tagsFor "eggs" (recipePairs [exRecipeA, exRecipeB])).length =
        ([exRecipeA, exRecipeB].map (fun r => r.ingredients.count "eggs")).sum :=
  groceryService_claim_C1 lkAB [1, 2] noOpts [exRecipeA, exRecipeB] "eggs" exRecipeA
    (by decide) (by decide) (by decide)

/-- C2: in every successful result the category buckets partition the
`ingredients` mapping — every stored ingredient name occurs exactly once
across all buckets, the multiset of bucket entry names equals the key
set, the keys are pairwise distinct — and `summary.totalIngredients`
equals the number of distinct keys of `ingredients`. -/
theorem groceryService_claim_C2 (lookup : Nat → Option Recipe) (ids : List Nat)
    (opts : GroceryOptions) (gl : GroceryList) (k : String)
    (hgen : generateGroceryList lookup ids opts = .ok gl)
    (hk : k ∈ gl.ingredients.map Prod.fst) :
    ((gl.categorizedIngredients.flatMap Prod.snd).map IngredientEntry.name).count k = 1
    ∧ ((gl.categorizedIngredients.flatMap Prod.snd).map IngredientEntry.name).Perm
        (gl.ingredients.map Prod.fst)
    ∧ (gl.ingredients.map Prod.fst).Nodup
    ∧ gl.totalIngredients = (gl.ingredients.map Prod.fst).dedup.length := by
  obtain ⟨rs, hres, rfl⟩ := generate_ok_inv lookup ids opts gl hgen
  have hnames := map_name_eq_keys (buildIngredients opts rs)
    (namesConsistent_buildIngredients opts rs)
  have hpermN : (((assembleGroceryList opts ids rs).categorizedIngredients.flatMap
      Prod.snd).map IngredientEntry.name).Perm
      ((buildIngredients opts rs).map Prod.fst) := by
    have hp := (assemble_flat_perm opts ids rs).map IngredientEntry.name
    rwa [hnames] at hp
  have hnd := buildIngredients_keys_nodup opts rs
  refine ⟨?_, hpermN, hnd, ?_⟩
  · rw [hpermN.count_eq]
    exact List.count_eq_one_of_mem hnd hk
  · show (buildIngredients opts rs).length =
      ((buildIngredients opts rs).map Prod.fst).dedup.length
    rw [List.Nodup.dedup hnd, List.length_map]

theorem groceryService_claim_C2_witness :
    ((((generateGroceryList lkAB [1, 2] noOpts).toOption.getD
        emptyGroceryList).categorizedIngredients.flatMap Prod.snd).map
        IngredientEntry.name).count "eggs" = 1
    ∧ ((((generateGroceryList lkAB [1, 2] noOpts).toOption.getD
        emptyGroceryList).categorizedIngredients.flatMap Prod.snd).map
        IngredientEntry.name).Perm
        (((generateGroceryList lkAB [1, 2] noOpts).toOption.getD
          emptyGroceryList).ingredients.map Prod.fst)
    ∧ (((generateGroceryList lkAB [1, 2] noOpts).toOption.getD
        emptyGroceryList).ingredients.map Prod.fst).Nodup
    ∧ ((generateGroceryList lkAB [1, 2] noOpts).toOption.getD
        emptyGroceryList).totalIngredients =
      (((generateGroceryList lkAB [1, 2] noOpts).toOption.getD
        emptyGroceryList).ingredients.map Prod.fst).dedup.length :=
  groceryService_claim_C2 lkAB [1, 2] noOpts
    ((generateGroceryList lkAB [1, 2] noOpts).toOption.getD emptyGroceryList) "eggs"
    (by with_unfolding_all decide) (by with_unfolding_all decide)

/-! ### C3: contributing-recipes characterization -/

theorem tagsFor_eq_filter (k : String) :
    ∀ rs : List Recipe, (∀ r ∈ rs, r.ingredients.count k ≤ 1) →
      tagsFor k (recipePairs rs) =
        (rs.filter (fun r => r.ingredients.contains k)).map recipeTagOf
  | [], _ => rfl
  | r :: rs, h => by
    rw [recipePairs_cons, tagsFor_append, List.filter_cons,
        tagsFor_eq_filter k rs (fun q hq => h q (List.mem_cons_of_mem r hq)),
        tagsFor_single_eq]
    have hr := h r (List.mem_cons_self r rs)
    by_cases hc : r.ingredients.contains k = true
    · have hcm : k ∈ r.ingredients := by simpa using hc
      have h1 : 0 < r.ingredients.count k := List.count_pos_iff.mpr hcm
      have hone : r.ingredients.count k = 1 := by omega
      rw [hone, hc]
      rfl
    · rw [Bool.not_eq_true] at hc
      have hcm : k ∉ r.ingredients := by simpa using hc
      have hzero : r.ingredients.count k = 0 := List.count_eq_zero.mpr hcm
      rw [hzero, hc]
      rfl

/-- C3 (amended): provided each processed recipe lists the ingredient at
most once and the `{recipeId, recipeName}` tags of the processed recipes
are pairwise distinct, the contributing-recipes list of every stored
entry is exactly the tag of every recipe whose ingredient list contains
that name, in processing order, and has no duplicates. -/
theorem groceryService_claim_C3_amended (lookup : Nat → Option Recipe) (ids : List Nat)
    (opts : GroceryOptions) (rs : List Recipe) (k : String) (e : IngredientEntry)
    (hres : resolveRecipes lookup ids = .ok rs)
    (hent : (generateGroceryList lookup ids opts).map
      (fun gl => alookup k gl.ingredients) = .ok (some e))
    (hcount : ∀ r ∈ rs, r.ingredients.count k ≤ 1)
    (htags : (rs.map recipeTagOf).Nodup) :
    e.recipes = (rs.filter (fun r => r.ingredients.contains k)).map recipeTagOf
    ∧ e.recipes.Nodup := by
  have hlook : alookup k (buildIngredients opts rs) = some e := by
    rw [generate_ok lookup ids opts rs hres] at hent
    have hent2 : (Except.ok (alookup k (buildIngredients opts rs)) :
        Except Nat (Option IngredientEntry)) = .ok (some e) := hent
    exact Except.ok.inj hent2
  have hexc : excludedB opts k = false := by
    by_contra hx
    rw [Bool.not_eq_false] at hx
    rw [alookup_buildIngredients_excluded opts rs k hx] at hlook
    exact Option.noConfusion hlook
  cases hfi : firstIntro k (recipePairs rs) with
  | none =>
    rw [alookup_buildIngredients_none opts rs k hexc hfi] at hlook
    exact Option.noConfusion hlook
  | some u =>
    rw [alookup_buildIngredients_some opts rs k u hexc hfi] at hlook
    have her : e.recipes = tagsFor k (recipePairs rs) := by
      rw [← Option.some.inj hlook]
      rfl
    rw [her, tagsFor_eq_filter k rs hcount]
    refine ⟨rfl, ?_⟩
    exact List.Nodup.sublist (List.Sublist.map recipeTagOf (List.filter_sublist rs)) htags

theorem groceryService_claim_C3_amended_witness :
    (freshEntry noOpts "eggs" exRecipeA
      (tagsFor "eggs" (recipePairs [exRecipeA, exRecipeB]))).recipes =
      ([exRecipeA, exRecipeB].filter (fun r => r.ingredients.contains "eggs")).map recipeTagOf
    ∧ (freshEntry noOpts "eggs" exRecipeA
        (tagsFor "eggs" (recipePairs [exRecipeA, exRecipeB]))).recipes.Nodup :=
  groceryService_claim_C3_amended lkAB [1, 2] noOpts [exRecipeA, exRecipeB] "eggs"
    (freshEntry noOpts "eggs" exRecipeA
      (tagsFor "eggs" (recipePairs [exRecipeA, exRecipeB])))
    (by decide) (by with_unfolding_all decide) (by decide) (by decide)

/-- Witness recipe for the C3 counterexample: lists "eggs" twice. -/
def exRecipeDup : Recipe := ⟨1, "Double", 2, 10, ["eggs", "eggs"]⟩

/-- Lookup for the C3 counterexample. -/
def lkDup : Nat → Option Recipe
  | 1 => some exRecipeDup
  | _ => none

/-- C3 counterexample: a single recipe listing "eggs" twice produces an
entry whose contributing-recipes list is `[tag, tag]` — it is not
duplicate-free and is not one tag per containing recipe, refuting the
claim as stated over all successful results. -/
theorem groceryService_claim_C3_counterexample :
    ((generateGroceryList lkDup [1] ⟨none, []⟩).map
      (fun gl => (alookup "eggs" gl.ingredients).map IngredientEntry.recipes)) =
      .ok (some [⟨1, "Double"⟩, ⟨1, "Double"⟩])
    ∧ ¬ ([⟨1, "Double"⟩, ⟨1, "Double"⟩] : List RecipeTag).Nodup := by
  refine ⟨by with_unfolding_all decide, by decide⟩

/-- C4: an ingredient name whose lowercase form is listed in
`options.excludeIngredients` produces no entry at all: it is not a key
of `ingredients`, appears in no category bucket, and the
`totalIngredients` count ranges only over the stored keys. -/
theorem groceryService_claim_C4 (lookup : Nat → Option Recipe) (ids : List Nat)
    (opts : GroceryOptions) (gl : GroceryList) (name : String)
    (c : String × List IngredientEntry) (e : IngredientEntry)
    (hgen : generateGroceryList lookup ids opts = .ok gl)
    (hex : jsLower name ∈ opts.excludeIngredients)
    (hc : c ∈ gl.categorizedIngredients) (he : e ∈ c.2) :
    alookup name gl.ingredients = none
    ∧ name ∉ gl.ingredients.map Prod.fst
    ∧ e.name ≠ name
    ∧ gl.totalIngredients = (gl.ingredients.map Prod.fst).length := by
  obtain ⟨rs, hres, rfl⟩ := generate_ok_inv lookup ids opts gl hgen
  have hexB : excludedB opts name = true := by
    rw [excludedB]
    simpa using hex
  have h1 : alookup name (buildIngredients opts rs) = none :=
    alookup_buildIngredients_excluded opts rs name hexB
  have h2 : name ∉ (buildIngredients opts rs).map Prod.fst := (alookup_eq_none _ _).mp h1
  refine ⟨h1, h2, ?_, ?_⟩
  · have hce : e ∈ (assembleGroceryList opts ids rs).categorizedIngredients.flatMap
        Prod.snd := List.mem_flatMap.mpr ⟨c, hc, he⟩
    have hee : e ∈ (buildIngredients opts rs).map Prod.snd :=
      (assemble_flat_perm opts ids rs).mem_iff.mp hce
    have hname : e.name ∈ ((buildIngredients opts rs).map Prod.snd).map
        IngredientEntry.name := List.mem_map_of_mem _ hee
    rw [map_name_eq_keys _ (namesConsistent_buildIngredients opts rs)] at hname
    intro hn
    rw [hn] at hname
    exact h2 hname
  · show (buildIngredients opts rs).length =
      ((buildIngredients opts rs).map Prod.fst).length
    rw [List.length_map]

theorem groceryService_claim_C4_witness :
    alookup "eggs" ((generateGroceryList lkAB [1] ⟨none, ["eggs"]⟩).toOption.getD
      emptyGroceryList).ingredients = none
    ∧ "eggs" ∉ ((generateGroceryList lkAB [1] ⟨none, ["eggs"]⟩).toOption.getD
      emptyGroceryList).ingredients.map Prod.fst
    ∧ ((((generateGroceryList lkAB [1] ⟨none, ["eggs"]⟩).toOption.getD
        emptyGroceryList).categorizedIngredients.headD ⟨"", []⟩).2.headD
        emptyEntry).name ≠ "eggs"
    ∧ ((generateGroceryList lkAB [1] ⟨none, ["eggs"]⟩).toOption.getD
        emptyGroceryList).totalIngredients =
      (((generateGroceryList lkAB [1] ⟨none, ["eggs"]⟩).toOption.getD
        emptyGroceryList).ingredients.map Prod.fst).length :=
  groceryService_claim_C4 lkAB [1] ⟨none, ["eggs"]⟩
    ((generateGroceryList lkAB [1] ⟨none, ["eggs"]⟩).toOption.getD emptyGroceryList)
    "eggs"
    (((generateGroceryList lkAB [1] ⟨none, ["eggs"]⟩).toOption.getD
      emptyGroceryList).categorizedIngredients.headD ⟨"", []⟩)
    ((((generateGroceryList lkAB [1] ⟨none, ["eggs"]⟩).toOption.getD
      emptyGroceryList).categorizedIngredients.headD ⟨"", []⟩).2.headD emptyEntry)
    (by with_unfolding_all decide) (by decide)
    (by with_unfolding_all decide) (by with_unfolding_all decide)

/-- C9: every category bucket of a successful result is sorted by the
`name` field in case-insensitive lexical order (the comparator lowercases
both names before the lexical comparison). -/
theorem groceryService_claim_C9 (lookup : Nat → Option Recipe) (ids : List Nat)
    (opts : GroceryOptions) (gl : GroceryList) (c : String × List IngredientEntry)
    (hgen : generateGroceryList lookup ids opts = .ok gl)
    (hc : c ∈ gl.categorizedIngredients) :
    List.Sorted entryLe c.2 := by
  obtain ⟨rs, hres, rfl⟩ := generate_ok_inv lookup ids opts gl hgen
  rw [assemble_categorizedIngredients] at hc
  obtain ⟨q, hq, hty⟩ := List.mem_map.mp hc
  rw [← hty]
  exact sortEntries_sorted q.2

theorem groceryService_claim_C9_witness :
    List.Sorted entryLe
      (((generateGroceryList lkP [3] noOpts).toOption.getD
        emptyGroceryList).categorizedIngredients.headD ⟨"", []⟩).2 :=
  groceryService_claim_C9 lkP [3] noOpts
    ((generateGroceryList lkP [3] noOpts).toOption.getD emptyGroceryList)
    (((generateGroceryList lkP [3] noOpts).toOption.getD
      emptyGroceryList).categorizedIngredients.headD ⟨"", []⟩)
    (by with_unfolding_all decide) (by with_unfolding_all decide)

end Grocery
